import Mathlib

/-
Verification development for the HOST Insight client (Rust).

The definitions below are a shallow embedding of the client's source:

* `src/can.rs` — the DBC decoder (`frame_data` / `frame_value` inside
  `get_can_signal_value`, `get_signal_value`, `get_signed_number`,
  `is_multiplexor`, `is_multiplexed`, `get_multiplex_val`,
  `is_can_signal_duplicate`), the per-frame signal loop of `can_monitor`
  (`process_signal`) and the batching step of `can_sender`
  (`can_sender_step`).
* `src/gpio.rs` — `set_all_digital_out_to_defaults`.
* `src/net.rs` — `handle_send_result` (reply dispatch and the transport
  error back-off branch).
* `src/utils.rs` — `update_client`.
* `src/lib.rs` — `ExitCodes`, configuration record shapes.

Modelling conventions:
* Rust `u64`/`i64` become `Nat`/`Int`; wrap-around is written explicitly
  as `% 2 ^ 64` where the source can wrap.  Debug-build overflow checks
  (which panic) are modelled with `Except PanicKind` where a claim is
  about panic behaviour (`get_signed_number`, vector indexing).
* Rust `f64` values are modelled as exact rationals; the saturating
  truncating casts `as u64` / `as i64` become `f64AsU64` / `f64AsI64`.
* Side effects (spawned commands, file writes, sleeps, GPIO writes) are
  modelled as explicit effect traces.
* `rand::thread_rng().gen_range(lo..=hi)` is modelled by `gen_range`
  applied to an arbitrary draw `rand`; `gen_range lo hi rand` ranges
  over exactly the inclusive interval `[lo, hi]` (for `lo ≤ hi`) as
  `rand` ranges over `Nat`.
-/

namespace HostInsight

/-- Exit codes of the client, from `src/lib.rs` (`pub enum ExitCodes`). -/
inductive ExitCodes
  | Enoent
  | Etime
  | SwUpdate
deriving DecidableEq

/-- Numeric value of each exit code, from `src/lib.rs`. -/
def exit_code_value (e : ExitCodes) : Int :=
  match e with
  | ExitCodes.Enoent => 2
  | ExitCodes.Etime => 62
  | ExitCodes.SwUpdate => 100

/-- Build-time configuration directory constant (`CONF_DIR`), default value
per the spec's filesystem section. -/
def CONF_DIR : String := "/etc/opt/host-insight-client"

/-- Truncation of a rational toward zero, the rounding used by Rust's
float-to-integer `as` casts. -/
def rat_trunc (q : Rat) : Int := Int.tdiv q.num (q.den : Int)

/-- Smallest `i64` value. -/
def I64_MIN : Int := -(2 ^ 63)

/-- Largest `i64` value. -/
def I64_MAX : Int := 2 ^ 63 - 1

/-- Rust's saturating cast `f64 as u64`: truncate toward zero and clamp to
the `u64` range. -/
def f64AsU64 (q : Rat) : Nat :=
  let t := rat_trunc q
  if t < 0 then 0 else if (2 ^ 64 - 1 : Int) < t then 2 ^ 64 - 1 else t.toNat

/-- Rust's saturating cast `f64 as i64`: truncate toward zero and clamp to
the `i64` range. -/
def f64AsI64 (q : Rat) : Int :=
  let t := rat_trunc q
  if t < I64_MIN then I64_MIN else if I64_MAX < t then I64_MAX else t

/-- Rust's `std::cmp::min` on `u64`. -/
def cmp_min (a b : Nat) : Nat := if a ≤ b then a else b

/-- Reinterpretation of a `u64` bit pattern as an `i64` (Rust `as i64` on
an unsigned integer). -/
def u64_as_i64 (n : Nat) : Int :=
  if n < 2 ^ 63 then (n : Int) else (n : Int) - 2 ^ 64

/-- Kinds of debug-build panics that the embedded arithmetic can raise. -/
inductive PanicKind
  | subUnderflow
  | shlOverflow
  | mulOverflow
  | addOverflow
  | indexOutOfBounds
deriving DecidableEq

/-- Checked `u64` subtraction: Rust `a - b` panics on underflow in debug
builds. -/
def checked_sub (a b : Nat) : Except PanicKind Nat :=
  if b ≤ a then Except.ok (a - b) else Except.error PanicKind.subUnderflow

/-- Checked `u64` shift left: Rust `a << s` panics when `s ≥ 64` in debug
builds; otherwise high bits are discarded. -/
def checked_shl (a s : Nat) : Except PanicKind Nat :=
  if s < 64 then Except.ok ((a <<< s) % 2 ^ 64) else Except.error PanicKind.shlOverflow

/-- Checked `i64` multiplication: panics on overflow in debug builds. -/
def checked_i64_mul (a b : Int) : Except PanicKind Int :=
  if I64_MIN ≤ a * b ∧ a * b ≤ I64_MAX then Except.ok (a * b)
  else Except.error PanicKind.mulOverflow

/-- Checked `i64` addition: panics on overflow in debug builds. -/
def checked_i64_add (a b : Int) : Except PanicKind Int :=
  if I64_MIN ≤ a + b ∧ a + b ≤ I64_MAX then Except.ok (a + b)
  else Except.error PanicKind.addOverflow

/-- Byte order of a CAN signal (`can_dbc::ByteOrder`). -/
inductive ByteOrder
  | LittleEndian
  | BigEndian
deriving DecidableEq

/-- Multiplex indicator of a CAN signal (`can_dbc::MultiplexIndicator`). -/
inductive MultiplexIndicator
  | Multiplexor
  | MultiplexedSignal (val : Nat)
  | MultiplexorAndMultiplexedSignal (val : Nat)
  | Plain
deriving DecidableEq

/-- Value type of a CAN signal (`can_dbc::ValueType`). -/
inductive ValueType
  | Unsigned
  | Signed
deriving DecidableEq

/-- The fields of a `can_dbc::Signal` that the client reads. -/
structure Signal where
  name : String
  start_bit : Nat
  signal_size : Nat
  byte_order : ByteOrder
  value_type : ValueType
  factor : Rat
  offset : Rat
  unit : String
  multiplexer_indicator : MultiplexIndicator
deriving DecidableEq

/-- Decoded signal value (`host_insight::can_signal::Value` oneof). -/
inductive CanValue
  | ValF64 (q : Rat)
  | ValI64 (i : Int)
  | ValU64 (n : Nat)
  | ValStr (s : String)
deriving DecidableEq

/-- A decoded signal as sent to the server (`host_insight::CanSignal`). -/
structure CanSignal where
  signal_name : String
  unit : String
  value : Option CanValue
deriving DecidableEq

/-- A CAN message envelope (`host_insight::CanMessage`). -/
structure CanMessage where
  bus : String
  time_stamp : Option Nat
  signal : List CanSignal
deriving DecidableEq

/-- Big-endian interpretation of a byte list as an unsigned integer
(`u64::from_be_bytes` on an 8-byte buffer). -/
def fromBeBytes (bs : List Nat) : Nat :=
  bs.foldl (fun acc b => acc * 256 + b) 0

/-- Little-endian interpretation of a byte list as an unsigned integer
(`u64::from_le_bytes` on an 8-byte buffer). -/
def fromLeBytes (bs : List Nat) : Nat :=
  fromBeBytes bs.reverse

/-- The 8-byte buffer `frame_data` assembled at the start of
`get_can_signal_value` (`src/can.rs` lines 255-260): it starts as eight
zero bytes, and the payload `d` is copied into it ONLY when the signal's
byte order is little-endian.  Defined for payloads of at most 8 bytes
(longer payloads panic on indexing in the source, not modelled here). -/
def frame_data (s : Signal) (d : List Nat) : List Nat :=
  if s.byte_order = ByteOrder.LittleEndian then d ++ List.replicate (8 - d.length) 0
  else List.replicate 8 0

/-- The 64-bit frame integer `frame_value` of `get_can_signal_value`
(`src/can.rs` lines 262-266): interpret `frame_data` with the signal's
byte order. -/
def frame_value (s : Signal) (d : List Nat) : Nat :=
  if s.byte_order = ByteOrder.LittleEndian then fromLeBytes (frame_data s d)
  else fromBeBytes (frame_data s d)

/-- Modelled from the spec's words (section 4.1, frame assembly), for
comparison with `frame_value`: assemble the payload into a fixed 8-byte
buffer, zero-padding trailing bytes, then interpret it as a 64-bit
integer with the endianness stated by the signal. -/
def spec_frame_value (s : Signal) (d : List Nat) : Nat :=
  let buf := d ++ List.replicate (8 - d.length) 0
  if s.byte_order = ByteOrder.LittleEndian then fromLeBytes buf else fromBeBytes buf

/-- Bit extraction `get_signal_value` (`src/can.rs` lines 446-453). -/
def get_signal_value (fv start_bit signal_size : Nat) : Nat :=
  if signal_size = 64 then fv
  else (fv >>> start_bit) % 2 ^ signal_size

/-- The decoder's integrality test `is_float` (`src/can.rs` line 442):
`f != f as i64 as f64`. -/
def is_float (f : Rat) : Bool := decide (f ≠ (f64AsI64 f : Rat))

/-- The sign-extension `get_signed_number` (`src/can.rs` lines 407-440),
with debug-build overflow checks made explicit.  The shift and
subtraction panics are exactly the ones the source can hit; the final
`i64` scaling arithmetic is checked as well. -/
def get_signed_number (signal_value signal_length : Nat) (signal_factor signal_offset : Rat) :
    Except PanicKind CanValue := do
  let lm1 ← checked_sub signal_length 1
  let signed_mask ← checked_shl 1 lm1
  let is_negative := (signed_mask &&& signal_value) != 0
  let shifted ← checked_shl (2 ^ 64 - 1) signal_length
  let two_compliment_64 := shifted ||| signal_value
  if is_negative then
    if is_float signal_factor || is_float signal_offset then
      return CanValue.ValF64 ((u64_as_i64 two_compliment_64 : Rat) * signal_factor + signal_offset)
    else do
      let m ← checked_i64_mul (u64_as_i64 two_compliment_64) (f64AsI64 signal_factor)
      let r ← checked_i64_add m (f64AsI64 signal_offset)
      return CanValue.ValI64 r
  else
    if is_float signal_factor || is_float signal_offset then
      return CanValue.ValF64 ((signal_value : Rat) * signal_factor + signal_offset)
    else do
      let m ← checked_i64_mul (u64_as_i64 signal_value) (f64AsI64 signal_factor)
      let r ← checked_i64_add m (f64AsI64 signal_offset)
      return CanValue.ValI64 r

/-- The `i64` multiplicand that `get_signed_number` scales: the
sign-extended two's complement when the sign bit of the raw field is
set, the raw field reinterpreted as `i64` otherwise. -/
def sign_base (v len : Nat) : Int :=
  if (((1 <<< (len - 1)) % 2 ^ 64) &&& v) != 0 then
    u64_as_i64 ((((2 ^ 64 - 1) <<< len) % 2 ^ 64) ||| v)
  else u64_as_i64 v

/-- Predicate `is_multiplexor` (`src/can.rs` lines 285-292). -/
def is_multiplexor (s : Signal) : Bool :=
  match s.multiplexer_indicator with
  | MultiplexIndicator.Multiplexor => true
  | MultiplexIndicator.MultiplexedSignal _ => false
  | MultiplexIndicator.MultiplexorAndMultiplexedSignal _ => false
  | MultiplexIndicator.Plain => false

/-- Predicate `is_multiplexed` (`src/can.rs` lines 294-301). -/
def is_multiplexed (s : Signal) : Bool :=
  match s.multiplexer_indicator with
  | MultiplexIndicator.Multiplexor => false
  | MultiplexIndicator.MultiplexedSignal _ => true
  | MultiplexIndicator.MultiplexorAndMultiplexedSignal _ => false
  | MultiplexIndicator.Plain => false

/-- Declared multiplex index `get_multiplex_val` (`src/can.rs` lines
303-310). -/
def get_multiplex_val (s : Signal) : Nat :=
  match s.multiplexer_indicator with
  | MultiplexIndicator.Multiplexor => 0
  | MultiplexIndicator.MultiplexedSignal val => val
  | MultiplexIndicator.MultiplexorAndMultiplexedSignal val => val
  | MultiplexIndicator.Plain => 0

/-- Lookup in the previous-values map, modelling
`HashMap::get_key_value` on a map from signal names to last sent
values. -/
def mapLookup (m : List (String × Option CanValue)) (k : String) : Option (Option CanValue) :=
  match m with
  | [] => none
  | p :: rest => if p.1 = k then some p.2 else mapLookup rest k

/-- Insert-or-overwrite in the previous-values map, modelling the
`entry(..).or_insert_with(..) = v` idiom of `can_monitor`. -/
def mapInsert (m : List (String × Option CanValue)) (k : String) (v : Option CanValue) :
    List (String × Option CanValue) :=
  match m with
  | [] => [(k, v)]
  | p :: rest => if p.1 = k then (k, v) :: rest else p :: mapInsert rest k v

/-- Duplicate check `is_can_signal_duplicate` (`src/can.rs` lines 53-64). -/
def is_can_signal_duplicate (m : List (String × Option CanValue)) (name : String)
    (val : Option CanValue) : Bool :=
  match mapLookup m name with
  | some last_sent => last_sent == val
  | none => false

/-- Unit selection of `can_monitor` (`src/can.rs` lines 130-137): the DBC
unit string if non-empty, else "enum" for string values and "N/A"
otherwise. -/
def signal_unit (s : Signal) (v : Option CanValue) : String :=
  if s.unit = "" then
    match v with
    | some (CanValue.ValStr _) => "enum"
    | _ => "N/A"
  else s.unit

/-- Test whether a decoded value is the `ValU64` variant, the pattern
`Some(can_signal::Value::ValU64(_))` used by `can_monitor`. -/
def isU64 (v : CanValue) : Bool :=
  match v with
  | CanValue.ValU64 _ => true
  | _ => false

/-- State of the signal loop of `can_monitor`: the watcher's
previous-values map, the frame's multiplexor value `multiplex_val`, and
the emissions so far. -/
structure SigStep where
  prev : List (String × Option CanValue)
  mx : Nat
  out : List CanSignal
deriving DecidableEq

/-- One iteration of the signal loop of `can_monitor` (`src/can.rs`
lines 122-171), parameterised by the result `decoded` of
`get_can_signal_value` for this signal: `none` skips the signal; a
multiplexor updates `mx` (when its value is a `ValU64`) and is never
emitted; a multiplexed signal whose decoded value is a `ValU64` is
dropped when its declared index differs from `mx`; duplicates of the
last emission for the same name are dropped; otherwise the map is
updated and `{name, unit, value}` is appended. -/
def process_signal (st : SigStep) (s : Signal) (decoded : Option CanValue) : SigStep :=
  match decoded with
  | none => st
  | some v =>
    if is_multiplexor s then
      match v with
      | CanValue.ValU64 n => ⟨st.prev, n, st.out⟩
      | _ => st
    else if is_multiplexed s && isU64 v && (st.mx != get_multiplex_val s) then st
    else if is_can_signal_duplicate st.prev s.name (some v) then st
    else ⟨mapInsert st.prev s.name (some v), st.mx,
          st.out ++ [⟨s.name, signal_unit s (some v), some v⟩]⟩

/-- The whole signal loop for one frame: fold `process_signal` over the
message's signals paired with their decoded values. -/
def process_signals (st : SigStep) (sigs : List (Signal × Option CanValue)) : SigStep :=
  sigs.foldl (fun a p => process_signal a p.1 p.2) st

/-- Processing of one inbound frame by `can_monitor`: the multiplexor
value starts at 0 and the per-frame output list starts empty; the
watcher's previous-values map is threaded through. -/
def process_frame (prev : List (String × Option CanValue))
    (sigs : List (Signal × Option CanValue)) :
    List (String × Option CanValue) × List CanSignal :=
  let r := process_signals ⟨prev, 0, []⟩ sigs
  (r.prev, r.out)

/-- Processing of a sequence of inbound frames by one CAN watcher,
returning the final previous-values map and the concatenated emissions
(in enqueue order). -/
def run_frames (prev : List (String × Option CanValue))
    (frames : List (List (Signal × Option CanValue))) :
    List (String × Option CanValue) × List CanSignal :=
  match frames with
  | [] => (prev, [])
  | f :: rest =>
    let r := process_frame prev f
    let rr := run_frames r.1 rest
    (rr.1, r.2 ++ rr.2)

/-- The successive decoded values emitted for one signal name, in
emission order. -/
def emsFor (name : String) (l : List CanSignal) : List (Option CanValue) :=
  (l.filter (fun c => c.signal_name == name)).map CanSignal.value

/-- The previous-values map agrees with the emission history: for every
name it stores exactly the last emitted value (and nothing when the name
was never emitted). -/
def Agrees (m : List (String × Option CanValue)) (l : List CanSignal) : Prop :=
  ∀ name, mapLookup m name = (emsFor name l).getLast?

/-- Duplicate-free emission streams: for every signal name, consecutive
emitted values differ. -/
def Good (l : List CanSignal) : Prop :=
  ∀ name, List.Chain' (fun a b => a ≠ b) (emsFor name l)

/-- Batch size bound `MAX_MSG_TO_SEND` of `can_sender` (`src/can.rs`
line 67). -/
def MAX_MSG_TO_SEND : Nat := 100

/-- What one iteration of the `can_sender` loop does before transmitting. -/
inductive SenderAction
  | sleepMs (ms : Nat)
  | sendBatch (batch : List CanMessage)
deriving DecidableEq

/-- One iteration of the `can_sender` loop (`src/can.rs` lines 69-90):
with the queue locked, an empty queue causes a 100 ms sleep; otherwise
the first `MAX_MSG_TO_SEND` envelopes (or all of them, if fewer) are
drained into the batch that is then streamed. -/
def can_sender_step (q : List CanMessage) : SenderAction × List CanMessage :=
  let len := q.length
  if len = 0 then (SenderAction.sleepMs 100, q)
  else if len > MAX_MSG_TO_SEND then
    (SenderAction.sendBatch (q.take MAX_MSG_TO_SEND), q.drop MAX_MSG_TO_SEND)
  else (SenderAction.sendBatch q, [])

/-- A configured digital output port (`lib::DigitalOutPort`). -/
structure DigitalOutPort where
  internal_name : String
  external_name : String
  default_state : Nat
deriving DecidableEq

/-- The iterator `CONFIG.digital_out.clone().unwrap().ports.iter().enumerate()`
of `set_all_digital_out_to_defaults` (`src/gpio.rs` line 142).  The
field `ports` has type `Option<Vec<DigitalOutPort>>`, and `Option::iter`
yields the inner vector at most ONCE, so the loop body runs at most once
with index 0 and the whole vector as its item. -/
def option_iter_enumerate (ports : Option (List DigitalOutPort)) :
    List (Nat × List DigitalOutPort) :=
  match ports with
  | none => []
  | some v => [(0, v)]

/-- The body of `set_all_digital_out_to_defaults` (`src/gpio.rs` lines
141-160), parameterised by the GPIO name resolution
`get_digital_chip_and_line` (`resolve`).  Each loop iteration indexes
the item with the enumeration index (`p[i]`, a panic when out of
bounds), resolves the port's internal name, and on success drives the
resolved line to the port's `default_state`.  The result is the list of
`((chip, line), value)` writes performed. -/
def set_all_digital_out_to_defaults (resolve : String → Option (String × Nat))
    (ports : Option (List DigitalOutPort)) :
    Except PanicKind (List ((String × Nat) × Nat)) :=
  (option_iter_enumerate ports).foldlM
    (fun acc ip =>
      match ip.2.get? ip.1 with
      | none => Except.error PanicKind.indexOutOfBounds
      | some p =>
        match resolve p.internal_name with
        | some cl => Except.ok (acc ++ [(cl, p.default_state)])
        | none => Except.ok acc)
    []

/-- Retry timing configuration (`lib::Time`, the fields used by
`handle_send_result`). -/
structure TimeConfig where
  sleep_min_s : Nat
  sleep_max_s : Nat
deriving DecidableEq

/-- Side effects performed by the reply dispatcher and the updater. -/
inductive Effect
  | runCmd (program : String) (args : List String)
  | writeFile (path : String) (contents : String)
  | restoreDefaults
  | sleepSecs (s : Nat)
deriving DecidableEq

/-- Success flags for the external `opkg` invocations of
`update_client`, one per call site, in source order. -/
structure OpkgOracle where
  update_wait : Bool
  remove_wait : Bool
  install_new_ok : Bool
  reinstall_ok : Bool
  upgrade_wait : Bool
deriving DecidableEq

/-- Outcome of `update_client`. -/
inductive UpdateClientResult
  | ok
  | err
  | panicked
deriving DecidableEq

/-- The characters of a string before the first dot: the first component
of Rust's `split('.')`. -/
def take_until_dot (l : List Char) : List Char :=
  match l with
  | [] => []
  | c :: cs => if c = '.' then [] else c :: take_until_dot cs

/-- Removal of every `v` character: Rust `str::replace('v', "")`. -/
def remove_v (l : List Char) : List Char := l.filter (fun c => c ≠ 'v')

/-- Decimal digit accumulation for `str::parse`: `none` on any non-digit
character. -/
def digits_value (l : List Char) : Option Nat :=
  l.foldl
    (fun acc c =>
      match acc with
      | none => none
      | some n => if 48 ≤ c.toNat ∧ c.toNat ≤ 57 then some (n * 10 + (c.toNat - 48)) else none)
    (some 0)

/-- Rust `str::parse::<u32>` on a character list: non-empty, digits only,
bounded by `u32` (a failure is an `unwrap` panic at the call sites). -/
def parse_u32 (l : List Char) : Option Nat :=
  match l with
  | [] => none
  | _ =>
    match digits_value l with
    | some n => if n < 2 ^ 32 then some n else none
    | none => none

/-- The major version extraction of `update_client` (`src/utils.rs`
lines 60-70): first dot-separated component, all `v` characters
removed, parsed as `u32`. -/
def major_of (version : String) : Option Nat :=
  parse_u32 (remove_v (take_until_dot version.data))

/-- The updater `update_client` (`src/utils.rs` lines 47-129),
parameterised by the current version string (`GIT_COMMIT_DESCRIBE`) and
the success of each `opkg` invocation.  Returns the trace of side
effects together with the outcome.  Note that the package name strings
containing braces are plain string literals in the source (not `format!`
calls), and are embedded verbatim. -/
def update_client (current version : String) (o : OpkgOracle) :
    List Effect × UpdateClientResult :=
  let e0 := [Effect.runCmd "opkg" ["update"]]
  if o.update_wait = false then (e0, UpdateClientResult.err)
  else
    match major_of current, major_of version with
    | some current_major, some required_major =>
      let current_package :=
        if current_major < 2 then "host-insight-client" else "host-insight-client{current_major}"
      if current_major < required_major then
        let e1 := e0 ++ [Effect.runCmd "opkg" ["remove", current_package]]
        if o.remove_wait = false then (e1, UpdateClientResult.err)
        else
          let e2 := e1 ++ [Effect.runCmd "opkg" ["install", "host-insight-client{required_major}"]]
          if o.install_new_ok then (e2, UpdateClientResult.ok)
          else
            let e3 := e2 ++ [Effect.runCmd "opkg" ["install", current_package]]
            if o.reinstall_ok then (e3, UpdateClientResult.ok)
            else (e3, UpdateClientResult.err)
      else
        let e1 := e0 ++ [Effect.runCmd "opkg" ["upgrade", current_package]]
        if o.upgrade_wait then (e1, UpdateClientResult.ok) else (e1, UpdateClientResult.err)
    | _, _ => (e0, UpdateClientResult.panicked)

/-- The `clean_up` helper (`src/utils.rs` lines 131-136): restore all
digital outputs to defaults when a digital-out block is configured. -/
def clean_up_effects (hasDigitalOut : Bool) : List Effect :=
  if hasDigitalOut then [Effect.restoreDefaults] else []

/-- TOML serialisation of an identity, modelling `toml::to_string` on
`Identity` in the `IdentityUpdateMsg` branch. -/
def identity_toml (uid domain : String) : String :=
  "uid = \"" ++ uid ++ "\"\ndomain = \"" ++ domain ++ "\"\n"

/-- The `fetch_resource` helper (`src/utils.rs` lines 23-45): download
via curl into the configuration directory, using the target name when
present and the last URL path component otherwise. -/
def fetch_resource (url : String) (dst : Option String) : List Effect :=
  match dst with
  | some d => [Effect.runCmd "curl" ["-o", CONF_DIR ++ "/" ++ d, url]]
  | none =>
    let file_name := (url.splitOn "/").getLastD ""
    [Effect.runCmd "curl" ["-o", CONF_DIR ++ "/" ++ file_name, url]]

/-- The tagged action of a server `Reply` (`host_insight::reply::Action`). -/
inductive ReplyAction
  | CarryOnMsg
  | ExitMsg (reason : Int)
  | ControlRequestMsg
  | ConfigUpdateMsg (config : String)
  | IdentityUpdateMsg (uid domain : String)
  | FetchResourceMsg (url : String) (target_location : Option String)
  | SwUpdateMsg (version : String)
deriving DecidableEq

/-- Jitter constant `SLEEP_OFFSET` (`src/net.rs` line 40), the value 0.1
given in normalised rational form. -/
def SLEEP_OFFSET : Rat := ⟨1, 10, by decide, by decide⟩

/-- The value of the lower jitter factor `1.0 - SLEEP_OFFSET` computed by
the transport error arm, in normalised rational form (the equation with
the source expression is proved in `one_minus_sleep_offset_eq`). -/
def one_minus_sleep_offset : Rat := ⟨9, 10, by decide, by decide⟩

/-- The value of the upper jitter factor `1.0 + SLEEP_OFFSET` computed by
the transport error arm, in normalised rational form (the equation with
the source expression is proved in `one_plus_sleep_offset_eq`). -/
def one_plus_sleep_offset : Rat := ⟨11, 10, by decide, by decide⟩

/-- Model of `rand::thread_rng().gen_range(lo..=hi)`: for `lo ≤ hi`,
`gen_range lo hi rand` is exactly the inclusive interval `[lo, hi]` as
the draw `rand` ranges over `Nat`. -/
def gen_range (lo hi rand : Nat) : Nat := lo + rand % (hi - lo + 1)

/-- Outcome of one call to `handle_send_result`: return `Ok` with the
new retry sleep, return `Err` with the new retry sleep and the duration
slept, process exit, or panic; each carries its effect trace. -/
inductive HsrOutcome
  | retOk (s : Nat) (effects : List Effect)
  | retErr (s : Nat) (slept : Nat) (effects : List Effect)
  | exited (code : Int) (effects : List Effect)
  | panicked (effects : List Effect)
deriving DecidableEq

/-- The reply dispatcher `handle_send_result` (`src/net.rs` lines
143-246).  `current` is the build version `GIT_COMMIT_DESCRIBE`,
`hasDigitalOut` whether a digital-out block is configured (consulted by
`clean_up`), `o` the opkg oracle, `r` the RPC result, `s` the current
retry sleep, and `rand` the random draw used by the back-off jitter.
The control-gate signalling of the `ControlRequestMsg` arm is not
modelled (no claim depends on it).  In the transport error arm, the
sleep bounds are `s * ((1.0 - SLEEP_OFFSET) as u64)` and
`s * ((1.0 + SLEEP_OFFSET) as u64)` exactly as in the source: the casts
apply to the float factors, not to the products. -/
def handle_send_result (cfg : TimeConfig) (current : String) (hasDigitalOut : Bool)
    (o : OpkgOracle) (r : Except String (Option ReplyAction)) (s : Nat) (rand : Nat) :
    HsrOutcome :=
  match r with
  | Except.ok act =>
    match act with
    | some ReplyAction.CarryOnMsg => HsrOutcome.retOk cfg.sleep_min_s []
    | some (ReplyAction.ExitMsg reason) =>
      HsrOutcome.exited reason (clean_up_effects hasDigitalOut)
    | some ReplyAction.ControlRequestMsg => HsrOutcome.retOk cfg.sleep_min_s []
    | some (ReplyAction.ConfigUpdateMsg config) =>
      HsrOutcome.exited 0
        ([Effect.writeFile (CONF_DIR ++ "/conf-new.toml") config] ++
          clean_up_effects hasDigitalOut)
    | some (ReplyAction.IdentityUpdateMsg uid domain) =>
      HsrOutcome.exited 0
        ([Effect.writeFile (CONF_DIR ++ "/identity.toml") (identity_toml uid domain)] ++
          clean_up_effects hasDigitalOut)
    | some (ReplyAction.FetchResourceMsg url target) =>
      HsrOutcome.exited 0 (fetch_resource url target ++ clean_up_effects hasDigitalOut)
    | some (ReplyAction.SwUpdateMsg version) =>
      let u := update_client current version o
      match u.2 with
      | UpdateClientResult.ok =>
        HsrOutcome.exited (exit_code_value ExitCodes.SwUpdate)
          (u.1 ++ clean_up_effects hasDigitalOut)
      | UpdateClientResult.err => HsrOutcome.retOk cfg.sleep_min_s u.1
      | UpdateClientResult.panicked => HsrOutcome.panicked u.1
    | none => HsrOutcome.panicked []
  | Except.error _ =>
    let slept :=
      cmp_min
        (gen_range (s * f64AsU64 one_minus_sleep_offset) (s * f64AsU64 one_plus_sleep_offset)
          rand)
        cfg.sleep_max_s
    if s > cfg.sleep_max_s then
      HsrOutcome.exited (exit_code_value ExitCodes.Etime) [Effect.sleepSecs slept]
    else HsrOutcome.retErr (s * 2 % 2 ^ 64) slept [Effect.sleepSecs slept]

/-- The effect trace of an outcome of the dispatcher. -/
def outcome_effects (h : HsrOutcome) : List Effect :=
  match h with
  | HsrOutcome.retOk _ eff => eff
  | HsrOutcome.retErr _ _ eff => eff
  | HsrOutcome.exited _ eff => eff
  | HsrOutcome.panicked eff => eff

/-- Whether an effect is a file write. -/
def effect_is_file_write (e : Effect) : Bool :=
  match e with
  | Effect.writeFile _ _ => true
  | _ => false

/-- Replace a signal's multiplex indicator, keeping all other fields. -/
def set_indicator (s : Signal) (mi : MultiplexIndicator) : Signal :=
  ⟨s.name, s.start_bit, s.signal_size, s.byte_order, s.value_type, s.factor, s.offset,
    s.unit, mi⟩

/-- The all-success opkg oracle, used in concrete scenarios. -/
def oracle_ok : OpkgOracle := ⟨true, true, true, true, true⟩


/- ### Theorems -/

/-- Equation between the normalised lower jitter factor and the source
expression `1.0 - SLEEP_OFFSET`. -/
theorem one_minus_sleep_offset_eq : one_minus_sleep_offset = 1 - SLEEP_OFFSET := by
  show (⟨9, 10, by decide, by decide⟩ : Rat) = 1 - ⟨1, 10, by decide, by decide⟩
  rw [Rat.mk'_eq_divInt, Rat.mk'_eq_divInt, Rat.divInt_eq_div, Rat.divInt_eq_div]
  norm_num

/-- Equation between the normalised upper jitter factor and the source
expression `1.0 + SLEEP_OFFSET`. -/
theorem one_plus_sleep_offset_eq : one_plus_sleep_offset = 1 + SLEEP_OFFSET := by
  show (⟨11, 10, by decide, by decide⟩ : Rat) = 1 + ⟨1, 10, by decide, by decide⟩
  rw [Rat.mk'_eq_divInt, Rat.mk'_eq_divInt, Rat.divInt_eq_div, Rat.divInt_eq_div]
  norm_num

/-- Claim C1 (code bug evidence): the decoder copies the payload into the
8-byte buffer only for little-endian signals, so for a big-endian signal
the frame integer is the big-endian interpretation of the ALL-ZERO
buffer, i.e. 0, not of the zero-padded payload.  At payload `[18]` the
code yields 0 while the spec-worded assembly yields `18 * 2 ^ 56`; the
little-endian case agrees with the spec. -/
theorem frame_value_big_endian_ignores_payload :
    frame_value
        (⟨"Temp", 56, 8, ByteOrder.BigEndian, ValueType.Unsigned, 1, 0, "",
          MultiplexIndicator.Plain⟩ : Signal) [18] = 0 ∧
    spec_frame_value
        (⟨"Temp", 56, 8, ByteOrder.BigEndian, ValueType.Unsigned, 1, 0, "",
          MultiplexIndicator.Plain⟩ : Signal) [18] = 18 * 2 ^ 56 ∧
    frame_value
        (⟨"Temp", 0, 8, ByteOrder.LittleEndian, ValueType.Unsigned, 1, 0, "",
          MultiplexIndicator.Plain⟩ : Signal) [18] =
      spec_frame_value
        (⟨"Temp", 0, 8, ByteOrder.LittleEndian, ValueType.Unsigned, 1, 0, "",
          MultiplexIndicator.Plain⟩ : Signal) [18] ∧
    (0 : Nat) ≠ 18 * 2 ^ 56 :=
  ⟨rfl, rfl, rfl, by norm_num⟩

/-- Claim C2 (code bug evidence): `set_all_digital_out_to_defaults`
iterates `Option<Vec<DigitalOutPort>>::iter().enumerate()`, which yields
the whole vector once at index 0, so with two configured ports only the
first port's line is driven to its default: the run performs exactly one
write, the one for `out1`, and never touches `out2`. -/
theorem set_all_digital_out_defaults_drives_only_first_port :
    set_all_digital_out_to_defaults (fun n => some (n, 0))
        (some [⟨"out1", "OUT1", 1⟩, ⟨"out2", "OUT2", 0⟩]) =
      Except.ok [(("out1", 0), 1)] ∧
    option_iter_enumerate (some [(⟨"out1", "OUT1", 1⟩ : DigitalOutPort), ⟨"out2", "OUT2", 0⟩]) =
      [(0, [⟨"out1", "OUT1", 1⟩, ⟨"out2", "OUT2", 0⟩])] :=
  ⟨rfl, rfl⟩

/-- Claim C3 (code bug evidence): the jitter bounds multiply the current
sleep `s` by the TRUNCATED casts `(1.0 - SLEEP_OFFSET) as u64 = 0` and
`(1.0 + SLEEP_OFFSET) as u64 = 1`, so the dispatcher draws uniformly
from `[0, s]`, not from `[0.9 s, 1.1 s]`: at `s = 3` with
`sleep_max_s = 4` and draw 0 it sleeps 0 seconds, whereas the claim's
jittered sleep `min(4, U[2.7, 3.3])` can never be 0. -/
theorem transport_error_sleep_uses_truncated_cast_factors :
    one_minus_sleep_offset = 1 - SLEEP_OFFSET ∧
    one_plus_sleep_offset = 1 + SLEEP_OFFSET ∧
    f64AsU64 one_minus_sleep_offset = 0 ∧
    f64AsU64 one_plus_sleep_offset = 1 ∧
    handle_send_result ⟨1, 4⟩ "v1.0.0" false oracle_ok (Except.error "refused") 3 0 =
      HsrOutcome.retErr 6 0 [Effect.sleepSecs 0] :=
  ⟨one_minus_sleep_offset_eq, one_plus_sleep_offset_eq, rfl, rfl, rfl⟩

/-- On a transport error the dispatcher exits with code 62 exactly when
the pre-update sleep exceeds `sleep_max_s`. -/
theorem hsr_error_exit_iff (cfg : TimeConfig) (cur : String) (hd : Bool) (o : OpkgOracle)
    (e : String) (s rand : Nat) :
    ((∃ eff, handle_send_result cfg cur hd o (Except.error e) s rand =
      HsrOutcome.exited 62 eff) ↔ cfg.sleep_max_s < s) := by
  unfold handle_send_result
  by_cases h : s > cfg.sleep_max_s
  · simp only [if_pos h]
    exact ⟨fun _ => h, fun _ => ⟨_, rfl⟩⟩
  · simp only [if_neg h]
    constructor
    · rintro ⟨eff, heq⟩
      simp at heq
    · intro hlt
      exact absurd hlt h

/-- On a transport error with pre-update sleep within the bound, the
dispatcher sleeps the capped jittered amount, doubles the sleep and
returns failure. -/
theorem hsr_error_retErr (cfg : TimeConfig) (cur : String) (hd : Bool) (o : OpkgOracle)
    (e : String) (s rand : Nat) (hle : s ≤ cfg.sleep_max_s) :
    handle_send_result cfg cur hd o (Except.error e) s rand =
      HsrOutcome.retErr (s * 2 % 2 ^ 64)
        (cmp_min
          (gen_range (s * f64AsU64 one_minus_sleep_offset) (s * f64AsU64 one_plus_sleep_offset)
            rand)
          cfg.sleep_max_s)
        [Effect.sleepSecs
          (cmp_min
            (gen_range (s * f64AsU64 one_minus_sleep_offset)
              (s * f64AsU64 one_plus_sleep_offset) rand)
            cfg.sleep_max_s)] := by
  unfold handle_send_result
  simp only [if_neg (by omega : ¬ s > cfg.sleep_max_s)]

/-- Claim C4: on a transport error the dispatcher terminates the process
with exit code 62 (ETIME) if and only if the pre-update retry sleep `s`
exceeded `sleep_max_s`; otherwise it doubles `s` and returns failure, so
`s` can exceed `sleep_max_s` by exactly one doubling step, which is the
condition that triggers the ETIME exit on the next failure. -/
theorem transport_error_exit_iff_pre_update_sleep_exceeded_max (cfg : TimeConfig)
    (cur : String) (hd : Bool) (o : OpkgOracle) (e : String) (s rand rand2 : Nat) :
    ((∃ eff, handle_send_result cfg cur hd o (Except.error e) s rand =
        HsrOutcome.exited 62 eff) ↔ cfg.sleep_max_s < s) ∧
    (s ≤ cfg.sleep_max_s →
      ∃ slept, handle_send_result cfg cur hd o (Except.error e) s rand =
        HsrOutcome.retErr (s * 2 % 2 ^ 64) slept [Effect.sleepSecs slept]) ∧
    (s ≤ cfg.sleep_max_s → cfg.sleep_max_s < 2 ^ 63 →
      s * 2 % 2 ^ 64 = s * 2 ∧
      ((∃ eff, handle_send_result cfg cur hd o (Except.error e) (s * 2) rand2 =
          HsrOutcome.exited 62 eff) ↔ cfg.sleep_max_s < s * 2)) := by
  refine ⟨hsr_error_exit_iff cfg cur hd o e s rand, ?_, ?_⟩
  · intro hle
    exact ⟨_, hsr_error_retErr cfg cur hd o e s rand hle⟩
  · intro hle hmax
    constructor
    · exact Nat.mod_eq_of_lt (by omega)
    · exact hsr_error_exit_iff cfg cur hd o e (s * 2) rand2

/-- Witness for claim C4: with `sleep_min_s = 1`, `sleep_max_s = 4`, a
failure at pre-update sleep 8 exits with 62, and a failure at
pre-update sleep 4 doubles to 8 and returns failure. -/
theorem transport_error_exit_iff_pre_update_sleep_exceeded_max_witness :
    (∃ eff, handle_send_result ⟨1, 4⟩ "v1" false oracle_ok (Except.error "x") 8 0 =
      HsrOutcome.exited 62 eff) ∧
    (∃ slept, handle_send_result ⟨1, 4⟩ "v1" false oracle_ok (Except.error "x") 4 0 =
      HsrOutcome.retErr (4 * 2 % 2 ^ 64) slept [Effect.sleepSecs slept]) := by
  constructor
  · exact (transport_error_exit_iff_pre_update_sleep_exceeded_max ⟨1, 4⟩ "v1" false oracle_ok
      "x" 8 0 0).1.2 (by norm_num)
  · exact (transport_error_exit_iff_pre_update_sleep_exceeded_max ⟨1, 4⟩ "v1" false oracle_ok
      "x" 4 0 0).2.1 (by norm_num)

/-- A decoded value that is not a `ValU64` fails the `isU64` test. -/
theorem isU64_eq_false_of_ne (v : CanValue) (h : ∀ n, v ≠ CanValue.ValU64 n) :
    isU64 v = false := by
  cases v with
  | ValU64 n => exact absurd rfl (h n)
  | ValF64 q => rfl
  | ValI64 i => rfl
  | ValStr t => rfl

/-- Claim C5 (counterexample): a multiplexed signal declared for index 1
whose decoded value is a string is emitted by the watcher even though
the current multiplexor value is 0, because the index filter of
`can_monitor` only applies to `ValU64` decoded values — contradicting
the claim that every multiplexed signal is filtered whatever its
variant. -/
theorem multiplexed_non_u64_emitted_despite_mismatch :
    is_multiplexed
        (⟨"S", 0, 8, ByteOrder.LittleEndian, ValueType.Unsigned, 1, 0, "",
          MultiplexIndicator.MultiplexedSignal 1⟩ : Signal) = true ∧
    get_multiplex_val
        (⟨"S", 0, 8, ByteOrder.LittleEndian, ValueType.Unsigned, 1, 0, "",
          MultiplexIndicator.MultiplexedSignal 1⟩ : Signal) = 1 ∧
    (process_signal ⟨[], 0, []⟩
        (⟨"S", 0, 8, ByteOrder.LittleEndian, ValueType.Unsigned, 1, 0, "",
          MultiplexIndicator.MultiplexedSignal 1⟩ : Signal)
        (some (CanValue.ValStr "A"))).out =
      [⟨"S", "enum", some (CanValue.ValStr "A")⟩] :=
  ⟨rfl, rfl, rfl⟩

/-- Claim C5 (amended): the multiplex filter of the CAN watcher applies
only to decoded values of the `ValU64` variant: a multiplexed signal
with a `ValU64` value and a declared index different from the current
multiplexor value is skipped, while a multiplexed signal with any other
decoded variant is processed exactly like a plain signal, subject only
to duplicate suppression. -/
theorem multiplex_filter_applies_only_to_u64 (st : SigStep) (s : Signal)
    (h : is_multiplexed s = true) :
    (∀ v, (∀ n, v ≠ CanValue.ValU64 n) →
      process_signal st s (some v) =
        process_signal st (set_indicator s MultiplexIndicator.Plain) (some v)) ∧
    (∀ n, st.mx ≠ get_multiplex_val s →
      process_signal st s (some (CanValue.ValU64 n)) = st) := by
  have hmux : is_multiplexor s = false := by
    unfold is_multiplexed at h
    unfold is_multiplexor
    cases hmi : s.multiplexer_indicator
    all_goals rw [hmi] at h
    all_goals simp_all
  constructor
  · intro v hv
    have hU : isU64 v = false := isU64_eq_false_of_ne v hv
    simp only [process_signal, hmux, Bool.false_eq_true, if_false, h, hU,
      Bool.and_false, Bool.false_and, set_indicator]
    rfl
  · intro n hmx
    have hb : (st.mx != get_multiplex_val s) = true := by
      simp [bne_iff_ne, hmx]
    simp [process_signal, hmux, h, hb, isU64]

/-- Witness for the amended claim C5: at multiplexor value 0, a
multiplexed string-valued signal declared for index 1 behaves like a
plain signal, while a `ValU64`-valued one is skipped. -/
theorem multiplex_filter_applies_only_to_u64_witness :
    process_signal ⟨[], 0, []⟩
        (⟨"S", 0, 8, ByteOrder.LittleEndian, ValueType.Unsigned, 1, 0, "",
          MultiplexIndicator.MultiplexedSignal 1⟩ : Signal)
        (some (CanValue.ValStr "A")) =
      process_signal ⟨[], 0, []⟩
        (set_indicator
          (⟨"S", 0, 8, ByteOrder.LittleEndian, ValueType.Unsigned, 1, 0, "",
            MultiplexIndicator.MultiplexedSignal 1⟩ : Signal)
          MultiplexIndicator.Plain)
        (some (CanValue.ValStr "A")) ∧
    process_signal ⟨[], 0, []⟩
      (⟨"S", 0, 8, ByteOrder.LittleEndian, ValueType.Unsigned, 1, 0, "",
        MultiplexIndicator.MultiplexedSignal 1⟩ : Signal)
      (some (CanValue.ValU64 7)) = ⟨[], 0, []⟩ :=
  ⟨(multiplex_filter_applies_only_to_u64 ⟨[], 0, []⟩
      (⟨"S", 0, 8, ByteOrder.LittleEndian, ValueType.Unsigned, 1, 0, "",
        MultiplexIndicator.MultiplexedSignal 1⟩ : Signal) rfl).1
      (CanValue.ValStr "A") (by intro n hcon; exact CanValue.noConfusion hcon),
    (multiplex_filter_applies_only_to_u64 ⟨[], 0, []⟩
      (⟨"S", 0, 8, ByteOrder.LittleEndian, ValueType.Unsigned, 1, 0, "",
        MultiplexIndicator.MultiplexedSignal 1⟩ : Signal) rfl).2 7 (by decide)⟩

/-- The opkg-based updater never writes a file. -/
theorem update_client_no_file_writes (cur v : String) (o : OpkgOracle) :
    (update_client cur v o).1.filter effect_is_file_write = [] := by
  unfold update_client
  by_cases h1 : o.update_wait = false
  · simp [h1, effect_is_file_write]
  · simp only [if_neg h1]
    cases hc : major_of cur with
    | none => simp [effect_is_file_write]
    | some cm =>
      cases hr : major_of v with
      | none => simp [effect_is_file_write]
      | some rm =>
        by_cases h2 : cm < rm
        · simp only [if_pos h2]
          by_cases h3 : o.remove_wait = false
          · simp [h3, effect_is_file_write]
          · simp only [if_neg h3]
            by_cases h4 : o.install_new_ok = true
            · simp [h4, effect_is_file_write]
            · simp only [if_neg h4]
              by_cases h5 : o.reinstall_ok = true
              · simp [h5, effect_is_file_write]
              · simp [h5, effect_is_file_write]
        · simp only [if_neg h2]
          by_cases h6 : o.upgrade_wait = true
          · simp [h6, effect_is_file_write]
          · simp [h6, effect_is_file_write]

/-- Claim C6 (counterexample): handling `SwUpdate{version: "2.3.0"}` at
current version `v1.0.0` with all opkg invocations succeeding performs
only `opkg` commands and the clean-up, then exits 100; its effect trace
contains no file write at all, so in particular
`/tmp/host-insight/client_upgrade` is not written. -/
theorem sw_update_writes_no_file_concrete :
    (outcome_effects (handle_send_result ⟨1, 4⟩ "v1.0.0" true oracle_ok
        (Except.ok (some (ReplyAction.SwUpdateMsg "2.3.0"))) 1 0)).filter
      effect_is_file_write = [] ∧
    handle_send_result ⟨1, 4⟩ "v1.0.0" true oracle_ok
        (Except.ok (some (ReplyAction.SwUpdateMsg "2.3.0"))) 1 0 =
      HsrOutcome.exited 100
        [Effect.runCmd "opkg" ["update"], Effect.runCmd "opkg" ["remove", "host-insight-client"],
          Effect.runCmd "opkg" ["install", "host-insight-client{required_major}"],
          Effect.restoreDefaults] :=
  ⟨rfl, rfl⟩

/-- Claim C6 (amended): handling a `SwUpdate{version}` reply invokes the
opkg-based `update_client`, whose effect trace never contains a file
write; if the updater succeeds the client cleans up and exits with code
100, and if it fails the client logs and carries on. -/
theorem sw_update_runs_opkg_and_writes_no_file (cfg : TimeConfig) (cur : String) (hd : Bool)
    (o : OpkgOracle) (v : String) (s rand : Nat) :
    (outcome_effects (handle_send_result cfg cur hd o
        (Except.ok (some (ReplyAction.SwUpdateMsg v))) s rand)).filter
      effect_is_file_write = [] ∧
    ((update_client cur v o).2 = UpdateClientResult.ok →
      handle_send_result cfg cur hd o (Except.ok (some (ReplyAction.SwUpdateMsg v))) s rand =
        HsrOutcome.exited 100 ((update_client cur v o).1 ++ clean_up_effects hd)) ∧
    ((update_client cur v o).2 = UpdateClientResult.err →
      handle_send_result cfg cur hd o (Except.ok (some (ReplyAction.SwUpdateMsg v))) s rand =
        HsrOutcome.retOk cfg.sleep_min_s (update_client cur v o).1) := by
  have hclean : (clean_up_effects hd).filter effect_is_file_write = [] := by
    cases hd <;> simp [clean_up_effects, effect_is_file_write]
  refine ⟨?_, ?_, ?_⟩
  · unfold handle_send_result
    cases hu : (update_client cur v o).2 with
    | ok =>
      simp only [hu, outcome_effects, List.filter_append,
        update_client_no_file_writes cur v o, hclean, List.nil_append]
    | err =>
      simp only [hu, outcome_effects, update_client_no_file_writes cur v o]
    | panicked =>
      simp only [hu, outcome_effects, update_client_no_file_writes cur v o]
  · intro hu
    unfold handle_send_result
    simp only [hu]
    rfl
  · intro hu
    unfold handle_send_result
    simp only [hu]

/-- Witness for the amended claim C6: the concrete upgrade from `v1.0.0`
to `2.3.0` with all opkg calls succeeding exits 100 with the updater's
command trace. -/
theorem sw_update_runs_opkg_and_writes_no_file_witness :
    handle_send_result ⟨1, 4⟩ "v1.0.0" false oracle_ok
        (Except.ok (some (ReplyAction.SwUpdateMsg "2.3.0"))) 1 0 =
      HsrOutcome.exited 100
        ((update_client "v1.0.0" "2.3.0" oracle_ok).1 ++ clean_up_effects false) :=
  (sw_update_runs_opkg_and_writes_no_file ⟨1, 4⟩ "v1.0.0" false oracle_ok "2.3.0" 1 0).2.1 rfl

/-- Lookup after insert-or-overwrite in the previous-values map. -/
theorem mapLookup_mapInsert (m : List (String × Option CanValue)) (k : String)
    (v : Option CanValue) (x : String) :
    mapLookup (mapInsert m k v) x = if x = k then some v else mapLookup m x := by
  induction m with
  | nil =>
    simp only [mapInsert, mapLookup]
    by_cases h : x = k
    · simp [h]
    · simp [h, fun hk => h (Eq.symm hk)]
      intro hk
      exact absurd hk.symm h
  | cons p rest ih =>
    simp only [mapInsert]
    by_cases hp : p.1 = k
    · simp only [if_pos hp, mapLookup]
      by_cases hx : x = k
      · simp [hx]
      · have : ¬ (k = x) := fun hk => hx hk.symm
        simp only [if_neg this, if_neg hx]
        have : ¬ (p.1 = x) := by rw [hp]; exact this
        simp [mapLookup, this]
    · simp only [if_neg hp, mapLookup]
      by_cases hx : p.1 = x
      · have : ¬ (x = k) := by rw [← hx]; exact fun h => hp h
        simp [hx, this]
      · simp [hx, ih]

/-- The emission stream of a name distributes over concatenation. -/
theorem emsFor_append (name : String) (l1 l2 : List CanSignal) :
    emsFor name (l1 ++ l2) = emsFor name l1 ++ emsFor name l2 := by
  simp [emsFor]

/-- The emission stream of a name on a one-element list. -/
theorem emsFor_singleton (name : String) (c : CanSignal) :
    emsFor name [c] = if c.signal_name = name then [c.value] else [] := by
  by_cases h : c.signal_name = name
  · simp [emsFor, List.filter, h]
  · have hb : (c.signal_name == name) = false := by simp [h]
    simp [emsFor, List.filter, hb, h]

/-- A failed duplicate check means the map does not hold this value for
this name. -/
theorem dup_eq_false_iff (m : List (String × Option CanValue)) (name : String)
    (val : Option CanValue) :
    is_can_signal_duplicate m name val = false ↔ mapLookup m name ≠ some val := by
  unfold is_can_signal_duplicate
  cases h : mapLookup m name with
  | none => simp
  | some last => simp [beq_eq_false_iff_ne]

/-- Each iteration of the signal loop either leaves the map and output
untouched, or appends exactly one signal whose decoded value differs
from the stored previous value and records that value in the map. -/
theorem process_signal_spec (st : SigStep) (s : Signal) (d : Option CanValue) :
    ((process_signal st s d).prev = st.prev ∧ (process_signal st s d).out = st.out) ∨
    (∃ v, d = some v ∧ mapLookup st.prev s.name ≠ some (some v) ∧
      process_signal st s d =
        ⟨mapInsert st.prev s.name (some v), st.mx,
         st.out ++ [⟨s.name, signal_unit s (some v), some v⟩]⟩) := by
  match d with
  | none => exact Or.inl ⟨rfl, rfl⟩
  | some v =>
    simp only [process_signal]
    by_cases h1 : is_multiplexor s
    · simp only [if_pos h1]
      match v with
      | CanValue.ValU64 n => exact Or.inl ⟨rfl, rfl⟩
      | CanValue.ValF64 q => exact Or.inl ⟨rfl, rfl⟩
      | CanValue.ValI64 i => exact Or.inl ⟨rfl, rfl⟩
      | CanValue.ValStr t => exact Or.inl ⟨rfl, rfl⟩
    · simp only [if_neg h1]
      by_cases h2 : (is_multiplexed s && isU64 v && (st.mx != get_multiplex_val s)) = true
      · simp only [if_pos h2]
        exact Or.inl ⟨by trivial, by trivial⟩
      · simp only [if_neg h2]
        by_cases h3 : is_can_signal_duplicate st.prev s.name (some v) = true
        · simp only [if_pos h3]
          exact Or.inl ⟨by trivial, by trivial⟩
        · simp only [if_neg h3]
          refine Or.inr ⟨v, rfl, ?_, rfl⟩
          exact (dup_eq_false_iff st.prev s.name (some v)).1 (Bool.eq_false_iff.2 h3)

/-- One loop iteration preserves the map/emission agreement and the
duplicate-freeness of the emission history. -/
theorem step_invariant (st : SigStep) (s : Signal) (d : Option CanValue)
    (ems : List CanSignal)
    (hA : Agrees st.prev (ems ++ st.out)) (hG : Good (ems ++ st.out)) :
    Agrees (process_signal st s d).prev (ems ++ (process_signal st s d).out) ∧
    Good (ems ++ (process_signal st s d).out) := by
  rcases process_signal_spec st s d with ⟨hp, ho⟩ | ⟨v, hd, hne, heq⟩
  · rw [hp, ho]; exact ⟨hA, hG⟩
  · rw [heq]
    have hassoc : ∀ c : CanSignal, ems ++ (st.out ++ [c]) = (ems ++ st.out) ++ [c] :=
      fun c => (List.append_assoc ems st.out [c]).symm
    constructor
    · intro name
      rw [hassoc, mapLookup_mapInsert, emsFor_append, emsFor_singleton]
      by_cases hx : name = s.name
      · subst hx
        simp [List.getLast?_concat]
      · have hne2 : ¬ ((⟨s.name, signal_unit s (some v), some v⟩ : CanSignal).signal_name = name) :=
          fun h => hx h.symm
        simp [hx, hne2, hA name]
    · intro name
      rw [hassoc, emsFor_append, emsFor_singleton]
      by_cases hx : (⟨s.name, signal_unit s (some v), some v⟩ : CanSignal).signal_name = name
      · simp only [if_pos hx]
        rw [List.chain'_append]
        refine ⟨hG name, List.chain'_singleton _, ?_⟩
        intro x hx2 y hy
        simp only [List.head?_cons, Option.mem_def, Option.some.injEq] at hy
        subst hy
        intro hcon
        apply hne
        have hlast : mapLookup st.prev name = some x := by rw [hA name]; exact hx2
        have hn : (⟨s.name, signal_unit s (some v), some v⟩ : CanSignal).signal_name = s.name := rfl
        rw [hn] at hx
        rw [hx, hlast, hcon]
      · simp only [if_neg hx, List.append_nil]
        exact hG name

/-- The whole signal loop of one frame preserves the invariant. -/
theorem signals_invariant (sigs : List (Signal × Option CanValue)) :
    ∀ (st : SigStep) (ems : List CanSignal),
      Agrees st.prev (ems ++ st.out) → Good (ems ++ st.out) →
      Agrees (process_signals st sigs).prev (ems ++ (process_signals st sigs).out) ∧
      Good (ems ++ (process_signals st sigs).out) := by
  induction sigs with
  | nil => intro st ems hA hG; exact ⟨hA, hG⟩
  | cons p rest ih =>
    intro st ems hA hG
    have h := step_invariant st p.1 p.2 ems hA hG
    have heq : process_signals st (p :: rest) =
        process_signals (process_signal st p.1 p.2) rest := rfl
    rw [heq]
    exact ih (process_signal st p.1 p.2) ems h.1 h.2

/-- Processing any sequence of frames preserves the invariant. -/
theorem frames_invariant (frames : List (List (Signal × Option CanValue))) :
    ∀ (prev : List (String × Option CanValue)) (ems : List CanSignal),
      Agrees prev ems → Good ems →
      Agrees (run_frames prev frames).1 (ems ++ (run_frames prev frames).2) ∧
      Good (ems ++ (run_frames prev frames).2) := by
  induction frames with
  | nil =>
    intro prev ems hA hG
    simp only [run_frames, List.append_nil]
    exact ⟨hA, hG⟩
  | cons f rest ih =>
    intro prev ems hA hG
    have hA0 : Agrees (⟨prev, 0, []⟩ : SigStep).prev (ems ++ (⟨prev, 0, []⟩ : SigStep).out) := by
      simpa using hA
    have hG0 : Good (ems ++ (⟨prev, 0, []⟩ : SigStep).out) := by simpa using hG
    have h := signals_invariant f (⟨prev, 0, []⟩ : SigStep) ems hA0 hG0
    have h2 := ih (process_frame prev f).1 (ems ++ (process_frame prev f).2) h.1 h.2
    simp only [run_frames]
    constructor
    · intro name
      rw [show ems ++ ((process_frame prev f).2 ++ (run_frames (process_frame prev f).1 rest).2) =
            (ems ++ (process_frame prev f).2) ++ (run_frames (process_frame prev f).1 rest).2 from
            (List.append_assoc _ _ _).symm]
      exact h2.1 name
    · intro name
      rw [show ems ++ ((process_frame prev f).2 ++ (run_frames (process_frame prev f).1 rest).2) =
            (ems ++ (process_frame prev f).2) ++ (run_frames (process_frame prev f).1 rest).2 from
            (List.append_assoc _ _ _).symm]
      exact h2.2 name

/-- Claim C7: over any sequence of frames processed by one CAN watcher
starting from an empty previous-values map, any two successive
emissions of the same signal name carry different values, and the
previous-values map always stores exactly the last emitted value of
each name (it is updated on every emission). -/
theorem can_watcher_successive_emissions_differ
    (frames : List (List (Signal × Option CanValue))) :
    (∀ name, List.Chain' (fun a b => a ≠ b) (emsFor name (run_frames [] frames).2)) ∧
    (∀ name, mapLookup (run_frames [] frames).1 name =
      (emsFor name (run_frames [] frames).2).getLast?) := by
  have h := frames_invariant frames [] []
    (by intro name; simp [mapLookup, emsFor]) (by intro name; simp [emsFor, Good])
  simp only [List.nil_append] at h
  exact ⟨fun name => h.2 name, fun name => h.1 name⟩

/-- Claim C8: an iteration of the sender loop that finds `n > 0` queued
envelopes drains exactly `min n 100` of them from the front, in order,
into the batch it transmits; an empty queue causes a 100 ms sleep and
drains nothing. -/
theorem can_sender_step_drains_min_len_100 (q : List CanMessage) :
    (q.length = 0 → can_sender_step q = (SenderAction.sleepMs 100, q)) ∧
    (0 < q.length →
      can_sender_step q =
        (SenderAction.sendBatch (q.take (min q.length MAX_MSG_TO_SEND)),
          q.drop (min q.length MAX_MSG_TO_SEND)) ∧
      (q.take (min q.length MAX_MSG_TO_SEND)).length = min q.length MAX_MSG_TO_SEND ∧
      q.take (min q.length MAX_MSG_TO_SEND) ++ q.drop (min q.length MAX_MSG_TO_SEND) = q) := by
  constructor
  · intro h
    unfold can_sender_step
    simp [h]
  · intro h
    have hlen : ¬ q.length = 0 := by omega
    unfold can_sender_step
    by_cases h100 : q.length > MAX_MSG_TO_SEND
    · have hmin : min q.length MAX_MSG_TO_SEND = MAX_MSG_TO_SEND := by
        unfold MAX_MSG_TO_SEND at h100 ⊢
        omega
      simp only [if_neg hlen, if_pos h100, hmin]
      refine ⟨by trivial, ?_, List.take_append_drop _ _⟩
      rw [List.length_take]
      unfold MAX_MSG_TO_SEND at h100 ⊢
      omega
    · have hmin : min q.length MAX_MSG_TO_SEND = q.length := by
        unfold MAX_MSG_TO_SEND at h100 ⊢
        omega
      simp only [if_neg hlen, if_neg h100, hmin]
      refine ⟨?_, ?_, List.take_append_drop _ _⟩
      · rw [List.take_length, List.drop_length]
      · rw [List.length_take]
        omega

/-- Witness for claim C8: a queue of one envelope is drained whole. -/
theorem can_sender_step_drains_min_len_100_witness :
    can_sender_step [(⟨"can0", none, []⟩ : CanMessage)] =
      (SenderAction.sendBatch
        (List.take (min (List.length [(⟨"can0", none, []⟩ : CanMessage)]) MAX_MSG_TO_SEND)
          [(⟨"can0", none, []⟩ : CanMessage)]),
        List.drop (min (List.length [(⟨"can0", none, []⟩ : CanMessage)]) MAX_MSG_TO_SEND)
          [(⟨"can0", none, []⟩ : CanMessage)]) :=
  ((can_sender_step_drains_min_len_100 [(⟨"can0", none, []⟩ : CanMessage)]).2 (by norm_num)).1

/-- Binding a successful `Except` computation applies the continuation. -/
theorem except_bind_ok {α β ε : Type} (a : α) (f : α → Except ε β) :
    (Except.ok a >>= f) = f a := rfl

/-- Claim C9 (counterexample): with the in-range bit length 63, factor 4
and offset 0, the raw value `2 ^ 62 - 1` makes the final `i64` scaling
multiplication of `get_signed_number` overflow, a debug-build panic, so
the bit-length precondition alone does not make the function panic
free. -/
theorem get_signed_number_scaling_overflow_panic :
    get_signed_number (2 ^ 62 - 1) 63 4 0 = Except.error PanicKind.mulOverflow := rfl

/-- Claim C9 (amended): for a signed signal of bit length between 1 and
63, `get_signed_number` performs its subtraction and both shifts without
panicking, and returns a value whenever the factor or offset is
non-integral (float path) or the final `i64` scaling stays within the
`i64` range; at length 64 the shift `max_val << signal_length`
overflows, and at length 0 the expression `signal_length - 1`
underflows, so decoding a 64-bit signed signal is not panic-free. -/
theorem get_signed_number_panic_boundaries :
    (∀ v len : Nat, ∀ f o : Rat, v < 2 ^ 64 → 1 ≤ len → len ≤ 63 →
      (is_float f = true ∨ is_float o = true ∨
        (I64_MIN ≤ sign_base v len * f64AsI64 f ∧ sign_base v len * f64AsI64 f ≤ I64_MAX ∧
         I64_MIN ≤ sign_base v len * f64AsI64 f + f64AsI64 o ∧
         sign_base v len * f64AsI64 f + f64AsI64 o ≤ I64_MAX)) →
      ∃ c, get_signed_number v len f o = Except.ok c) ∧
    (∀ v : Nat, ∀ f o : Rat, get_signed_number v 64 f o = Except.error PanicKind.shlOverflow) ∧
    (∀ v : Nat, ∀ f o : Rat, get_signed_number v 0 f o = Except.error PanicKind.subUnderflow) := by
  refine ⟨?_, ?_, ?_⟩
  · intro v len f o hv h1 h63 hdisj
    have e1 : checked_sub len 1 = Except.ok (len - 1) := by simp [checked_sub, h1]
    have e2 : checked_shl 1 (len - 1) = Except.ok ((1 <<< (len - 1)) % 2 ^ 64) := by
      simp only [checked_shl, if_pos (by omega : len - 1 < 64)]
    have e3 : checked_shl (2 ^ 64 - 1) len = Except.ok (((2 ^ 64 - 1) <<< len) % 2 ^ 64) := by
      simp only [checked_shl, if_pos (by omega : len < 64)]
    unfold get_signed_number
    simp only [e1, e2, e3, except_bind_ok]
    cases hneg : ((1 <<< (len - 1)) % 2 ^ 64 &&& v != 0) with
    | true =>
      simp only [hneg, if_true]
      cases hft : (is_float f || is_float o) with
      | true => simp only [hft, if_true]; exact ⟨_, rfl⟩
      | false =>
        simp only [hft, Bool.false_eq_true, if_false]
        have hfits : I64_MIN ≤ sign_base v len * f64AsI64 f ∧
            sign_base v len * f64AsI64 f ≤ I64_MAX ∧
            I64_MIN ≤ sign_base v len * f64AsI64 f + f64AsI64 o ∧
            sign_base v len * f64AsI64 f + f64AsI64 o ≤ I64_MAX := by
          rcases hdisj with hf | ho | hfits
          · rw [Bool.or_eq_false_iff] at hft; exact absurd hf (by simp [hft.1])
          · rw [Bool.or_eq_false_iff] at hft; exact absurd ho (by simp [hft.2])
          · exact hfits
        have hb : sign_base v len = u64_as_i64 (((2 ^ 64 - 1) <<< len) % 2 ^ 64 ||| v) := by
          unfold sign_base
          rw [hneg]
          rfl
        rw [hb] at hfits
        have em : checked_i64_mul (u64_as_i64 (((2 ^ 64 - 1) <<< len) % 2 ^ 64 ||| v))
            (f64AsI64 f) =
            Except.ok (u64_as_i64 (((2 ^ 64 - 1) <<< len) % 2 ^ 64 ||| v) * f64AsI64 f) := by
          simp only [checked_i64_mul, if_pos (And.intro hfits.1 hfits.2.1)]
        have ea : checked_i64_add
            (u64_as_i64 (((2 ^ 64 - 1) <<< len) % 2 ^ 64 ||| v) * f64AsI64 f) (f64AsI64 o) =
            Except.ok (u64_as_i64 (((2 ^ 64 - 1) <<< len) % 2 ^ 64 ||| v) * f64AsI64 f +
              f64AsI64 o) := by
          simp only [checked_i64_add, if_pos (And.intro hfits.2.2.1 hfits.2.2.2)]
        rw [em, except_bind_ok, ea, except_bind_ok]
        exact ⟨_, rfl⟩
    | false =>
      simp only [hneg, Bool.false_eq_true, if_false]
      cases hft : (is_float f || is_float o) with
      | true => simp only [hft, if_true]; exact ⟨_, rfl⟩
      | false =>
        simp only [hft, Bool.false_eq_true, if_false]
        have hfits : I64_MIN ≤ sign_base v len * f64AsI64 f ∧
            sign_base v len * f64AsI64 f ≤ I64_MAX ∧
            I64_MIN ≤ sign_base v len * f64AsI64 f + f64AsI64 o ∧
            sign_base v len * f64AsI64 f + f64AsI64 o ≤ I64_MAX := by
          rcases hdisj with hf | ho | hfits
          · rw [Bool.or_eq_false_iff] at hft; exact absurd hf (by simp [hft.1])
          · rw [Bool.or_eq_false_iff] at hft; exact absurd ho (by simp [hft.2])
          · exact hfits
        have hb : sign_base v len = u64_as_i64 v := by
          unfold sign_base
          rw [hneg]
          rfl
        rw [hb] at hfits
        have em : checked_i64_mul (u64_as_i64 v) (f64AsI64 f) =
            Except.ok (u64_as_i64 v * f64AsI64 f) := by
          simp only [checked_i64_mul, if_pos (And.intro hfits.1 hfits.2.1)]
        have ea : checked_i64_add (u64_as_i64 v * f64AsI64 f) (f64AsI64 o) =
            Except.ok (u64_as_i64 v * f64AsI64 f + f64AsI64 o) := by
          simp only [checked_i64_add, if_pos (And.intro hfits.2.2.1 hfits.2.2.2)]
        rw [em, except_bind_ok, ea, except_bind_ok]
        exact ⟨_, rfl⟩
  · intro v f o
    rfl
  · intro v f o
    rfl

/-- Witness for the amended claim C9: an 8-bit signed signal with factor
1 and offset 0 decodes without panicking. -/
theorem get_signed_number_panic_boundaries_witness :
    ∃ c, get_signed_number 5 8 1 0 = Except.ok c :=
  get_signed_number_panic_boundaries.1 5 8 1 0 (by norm_num) (by norm_num) (by norm_num)
    (Or.inr (Or.inr (by decide)))

/-- Claim C10: a signal whose multiplex indicator is the combined
multiplexor-and-multiplexed variant is treated by the watcher exactly
like a plain signal: the loop iteration coincides with the one for the
same signal marked plain, and the multiplexor value `mx` is never
updated by it. -/
theorem multiplexor_and_multiplexed_treated_as_plain (st : SigStep) (s : Signal) (k : Nat)
    (h : s.multiplexer_indicator = MultiplexIndicator.MultiplexorAndMultiplexedSignal k)
    (d : Option CanValue) :
    process_signal st s d = process_signal st (set_indicator s MultiplexIndicator.Plain) d ∧
    (process_signal st s d).mx = st.mx := by
  have hmux : is_multiplexor s = false := by unfold is_multiplexor; rw [h]
  have hmed : is_multiplexed s = false := by unfold is_multiplexed; rw [h]
  have heq : process_signal st s d =
      process_signal st (set_indicator s MultiplexIndicator.Plain) d := by
    cases d with
    | none => rfl
    | some v =>
      simp only [process_signal, hmux, hmed, Bool.false_eq_true, if_false, Bool.false_and,
        set_indicator]
      rfl
  refine ⟨heq, ?_⟩
  rw [heq]
  cases d with
  | none => rfl
  | some v =>
    simp only [process_signal, set_indicator]
    by_cases h3 : is_can_signal_duplicate st.prev s.name (some v) = true
    · simp [is_multiplexor, is_multiplexed, h3]
    · simp [is_multiplexor, is_multiplexed, h3]

/-- Witness for claim C10: a concrete combined-variant signal processed
at multiplexor value 3 coincides with its plain twin and leaves `mx`
unchanged. -/
theorem multiplexor_and_multiplexed_treated_as_plain_witness :
    (process_signal ⟨[], 3, []⟩
        (⟨"B", 0, 8, ByteOrder.LittleEndian, ValueType.Unsigned, 1, 0, "",
          MultiplexIndicator.MultiplexorAndMultiplexedSignal 2⟩ : Signal)
        (some (CanValue.ValU64 9)) =
      process_signal ⟨[], 3, []⟩
        (set_indicator
          (⟨"B", 0, 8, ByteOrder.LittleEndian, ValueType.Unsigned, 1, 0, "",
            MultiplexIndicator.MultiplexorAndMultiplexedSignal 2⟩ : Signal)
          MultiplexIndicator.Plain)
        (some (CanValue.ValU64 9))) ∧
    (process_signal ⟨[], 3, []⟩
        (⟨"B", 0, 8, ByteOrder.LittleEndian, ValueType.Unsigned, 1, 0, "",
          MultiplexIndicator.MultiplexorAndMultiplexedSignal 2⟩ : Signal)
        (some (CanValue.ValU64 9))).mx = 3 :=
  ⟨(multiplexor_and_multiplexed_treated_as_plain ⟨[], 3, []⟩
      (⟨"B", 0, 8, ByteOrder.LittleEndian, ValueType.Unsigned, 1, 0, "",
        MultiplexIndicator.MultiplexorAndMultiplexedSignal 2⟩ : Signal) 2 rfl
      (some (CanValue.ValU64 9))).1,
    (multiplexor_and_multiplexed_treated_as_plain ⟨[], 3, []⟩
      (⟨"B", 0, 8, ByteOrder.LittleEndian, ValueType.Unsigned, 1, 0, "",
        MultiplexIndicator.MultiplexorAndMultiplexedSignal 2⟩ : Signal) 2 rfl
      (some (CanValue.ValU64 9))).2⟩

end HostInsight
